import Mathlib

/-!
Verification of the feed-generation pipeline of `server.js` (tn-feed-app).

The JavaScript source is shallowly embedded: dynamic JS values that the feed
code inspects (strings, finite numbers, booleans, `null`, `undefined`, plain
objects and arrays) are modelled by the inductive type `LVal`; JS numbers are
modelled by exact rationals (the feed only manipulates finite decimal values;
IEEE-754 rounding, `Infinity`, `NaN`-producing exotica and exponent/hex
numeric literals are outside the modelled fragment, and `NaN` outcomes are
represented by `Option.none`).  Each Lean definition mirrors the identically
named function of `server.js`.
-/

namespace TnFeed

/-! ### Basic character and string helpers (fragment of JS string semantics) -/

/-- ASCII lowercasing of one character, the fragment of
`String.prototype.toLowerCase` exercised by the source (mode strings,
hostnames). -/
def lowerChar (c : Char) : Char :=
  if 'A' ≤ c ∧ c ≤ 'Z' then Char.ofNat (c.toNat + 32) else c

/-- ASCII lowercasing of a string (JS `toLowerCase` on ASCII data). -/
def toLowerStr (s : String) : String :=
  ⟨s.data.map lowerChar⟩

/-- JS `String.prototype.trim` on the ASCII fragment: drop leading and
trailing whitespace characters. -/
def trimChars (l : List Char) : List Char :=
  ((l.dropWhile Char.isWhitespace).reverse.dropWhile Char.isWhitespace).reverse

/-- String-level wrapper for `trimChars`. -/
def jsTrim (s : String) : String :=
  ⟨trimChars s.data⟩

/-- Split a character list at every occurrence of the separator `sep`
(JS `String.prototype.split` with a one-character separator). -/
def splitCh (sep : Char) : List Char → List (List Char)
  | [] => [[]]
  | c :: rest =>
    let r := splitCh sep rest
    if c = sep then [] :: r
    else
      match r with
      | [] => [[c]]
      | g :: gs => (c :: g) :: gs

/-- Split a string on a one-character separator. -/
def splitStr (sep : Char) (s : String) : List String :=
  (splitCh sep s.data).map fun l => ⟨l⟩

/-- Decimal digit character for `n < 10`. -/
def digitChar (n : ℕ) : Char :=
  Char.ofNat (48 + n % 10)

/-- Fuel-indexed digit rendering; `fuel` bounds the number of digits, so any
`fuel > log10 n` gives the exact rendering (structural recursion keeps the
definition kernel-computable). -/
def natCharsAux : ℕ → ℕ → List Char
  | 0, _ => []
  | fuel + 1, n =>
    if n < 10 then [digitChar n]
    else natCharsAux fuel (n / 10) ++ [digitChar (n % 10)]

/-- Decimal digit characters of a natural number (JS number-to-string for
naturals). -/
def natChars (n : ℕ) : List Char :=
  natCharsAux (n + 1) n

/-- Decimal rendering of a natural number. -/
def natStr (n : ℕ) : String :=
  ⟨natChars n⟩

/-- Decimal rendering of an integer, as produced by JS `String()` on an
integral number value. -/
def intStr (i : ℤ) : String :=
  if i < 0 then "-" ++ natStr i.natAbs else natStr i.natAbs

/-! ### The fragment of JS `Number(string)` used by the feed

`server.js` applies `Number` to price and stock fields, which the upstream
API delivers as plain decimal strings.  The parser below covers exactly the
decimal fragment `[ws] [sign] digits [. digits] [ws]` (plus the empty string,
which JS converts to `0`); every other string is mapped to `none`,
representing `NaN`. -/

/-- Numeric value of a digit character. -/
def digitVal (c : Char) : ℕ :=
  c.toNat - 48

/-- Value of a list of decimal digit characters. -/
def digitsVal (l : List Char) : ℕ :=
  l.foldl (fun acc c => acc * 10 + digitVal c) 0

/-- Exact negation of a rational, written so that it reduces in the kernel
(`Rat.neg` is irreducible in this Mathlib snapshot). -/
def negQ (q : ℚ) : ℚ :=
  mkRat (-q.num) q.den

/-- Parse an unsigned decimal numeral `digits [. digits]` (also `.digits` and
`digits.`), requiring at least one digit overall; `none` models `NaN`.
The exact value `int + frac / 10^k` is built with `mkRat` so that it
evaluates in the kernel. -/
def parseUnsigned (l : List Char) : Option ℚ :=
  let intPart := l.takeWhile Char.isDigit
  let rest := l.dropWhile Char.isDigit
  match rest with
  | [] => if intPart = [] then none else some (mkRat (digitsVal intPart) 1)
  | '.' :: frac =>
    if frac.all Char.isDigit ∧ (intPart ≠ [] ∨ frac ≠ []) then
      some (mkRat (digitsVal intPart * 10 ^ frac.length + digitsVal frac) (10 ^ frac.length))
    else none
  | _ => none

/-- The decimal fragment of JS `Number(string)`: trim, empty means `0`,
optional sign, decimal numeral; `none` models `NaN`. -/
def parseJsNumber (s : String) : Option ℚ :=
  let t := trimChars s.data
  match t with
  | [] => some 0
  | '+' :: r => parseUnsigned r
  | '-' :: r => (parseUnsigned r).map negQ
  | _ => parseUnsigned t

/-! ### `Number.prototype.toFixed(2)` on exact values

ECMA-262 `toFixed`: for a negative value emit `-` and continue with the
absolute value; pick the integer `n` minimising `|n / 100 - x|`, preferring
the larger `n` on ties.  On exact rationals that is `⌊x * 100 + 1/2⌋`.
(The IEEE-754 artefacts of `toFixed` on doubles are outside the modelled
fragment; all spec scenarios use exact two-decimal inputs.) -/

/-- Render a natural number of cents as `"units.dd"`. -/
def centsStr (c : ℕ) : String :=
  natStr (c / 100) ++ "." ++ (if c % 100 < 10 then "0" else "") ++ natStr (c % 100)

/-- `⌊q * 100 + 1/2⌋` for the nonnegative rational `n / d`, computed on the
components so that it reduces in the kernel:
`⌊n/d * 100 + 1/2⌋ = (200 * n + d).fdiv (2 * d)`. -/
def round2c (n : ℤ) (d : ℕ) : ℤ :=
  Int.fdiv (200 * n + d) (2 * d)

/-- `toFixed(2)` of an exact rational value (sign split off first, as in
ECMA-262; ties round towards the larger magnitude). -/
def toFixed2 (q : ℚ) : String :=
  if q.num < 0 then "-" ++ centsStr (round2c (-q.num) q.den).toNat
  else centsStr (round2c q.num q.den).toNat

/-! ### The dynamic JS value model -/

/-- A JS value as inspected by the feed pipeline: `undefined`, `null`,
booleans, finite numbers (exact rationals), strings, plain objects
(insertion-ordered fields) and arrays. -/
inductive LVal where
  | undefined : LVal
  | jnull : LVal
  | bool : Bool → LVal
  | num : ℚ → LVal
  | str : String → LVal
  | obj : List (String × LVal) → LVal
  | arr : List LVal → LVal

/-- JS truthiness: `undefined`, `null`, `false`, `0` and `""` are falsy;
objects and arrays are always truthy.  (`NaN`, the remaining falsy value, is
not a representable `LVal`.) -/
def truthy : LVal → Bool
  | .undefined => false
  | .jnull => false
  | .bool b => b
  | .num q => q ≠ 0
  | .str s => s ≠ ""
  | .obj _ => true
  | .arr _ => true

/-- Property lookup on a plain object: first field with the given key
(JS objects have unique keys; insertion order is list order). -/
def getField (fields : List (String × LVal)) (k : String) : Option LVal :=
  (fields.find? (fun f => f.fst = k)).map (·.snd)

/-- Property read `o.k`, producing `undefined` for a missing key. -/
def fieldD (fields : List (String × LVal)) (k : String) : LVal :=
  (getField fields k).getD .undefined

mutual

/-- JS `String(v)`.  Plain objects stringify to `"[object Object]"`; arrays
join their elements with `","`, rendering `null`/`undefined` elements as the
empty string.  Non-integral numbers are rendered as `"num/den"`, a placeholder
outside the modelled fragment (the feed stringifies only ids, which are
integers or strings). -/
def jsToString : LVal → String
  | .undefined => "undefined"
  | .jnull => "null"
  | .bool b => if b then "true" else "false"
  | .num q => if q.den = 1 then intStr q.num else intStr q.num ++ "/" ++ natStr q.den
  | .str s => s
  | .obj _ => "[object Object]"
  | .arr l => String.intercalate "," (arrElemStrings l)

/-- Element renderings used by JS `Array.prototype.toString`. -/
def arrElemStrings : List LVal → List String
  | [] => []
  | .undefined :: rest => "" :: arrElemStrings rest
  | .jnull :: rest => "" :: arrElemStrings rest
  | v :: rest => jsToString v :: arrElemStrings rest

end

/-- `getLocalized` of `server.js`: `undefined`/`null` become `""`; an object
yields its `es` field when truthy, else the value of its first key, else
`""` (for a JS array, `Object.keys` enumerates the indices, so the first
element is returned); anything else is stringified. -/
def getLocalized : LVal → LVal
  | .undefined => .str ""
  | .jnull => .str ""
  | .obj fs =>
    if truthy (fieldD fs "es") then fieldD fs "es"
    else
      match fs with
      | [] => .str ""
      | (_, v) :: _ => v
  | .arr [] => .str ""
  | .arr (v :: _) => v
  | v => .str (jsToString v)

/-- JS `Number(v)` (`none` models `NaN`): numbers are themselves, booleans
are `1`/`0`, `null` is `0`, `undefined` is `NaN`, strings go through the
decimal parser, plain objects are `NaN` (via `"[object Object]"`), arrays
convert through their joined string form. -/
def jsToNumber : LVal → Option ℚ
  | .undefined => none
  | .jnull => some 0
  | .bool b => some (if b then 1 else 0)
  | .num q => some q
  | .str s => parseJsNumber s
  | .obj _ => none
  | .arr l => parseJsNumber (jsToString (.arr l))

/-- `toMoney` of `server.js`: `undefined`, `null` and `""` give `null`;
otherwise `Number(v)` must be finite (here: parse successfully) and is
normalized with `toFixed(2)`. -/
def toMoney : LVal → Option String
  | .undefined => none
  | .jnull => none
  | .str "" => none
  | v => (jsToNumber v).map toFixed2

/-- `normalizeText` of `server.js`: `String(s || '').trim()`. -/
def normalizeText (v : LVal) : String :=
  if truthy v then jsTrim (jsToString v) else ""

/-- Truthiness of a JS `string | null` value (the type of `toMoney`
results). -/
def optTruthy : Option String → Bool
  | none => false
  | some s => s ≠ ""

/-- JS loose equality to `null` (`v != null` holds exactly for values other
than `null` and `undefined`). -/
def looseNull : LVal → Bool
  | .jnull => true
  | .undefined => true
  | _ => false

/-- The JS test `Number(v) > 0` (`NaN > 0` is false). -/
def numPositive (v : LVal) : Bool :=
  match jsToNumber v with
  | some q => decide (0 < q)
  | none => false

/-! ### Domain normalization and resolution -/

/-- Strip a leading `http://` or `https://` (case-insensitively), as the
regex `^https?:\/\//i` of `normalizeDomain` does. -/
def stripScheme (s : String) : String :=
  let low := s.data.map lowerChar
  if List.isPrefixOf "https://".data low then ⟨s.data.drop 8⟩
  else if List.isPrefixOf "http://".data low then ⟨s.data.drop 7⟩
  else s

/-- Strip trailing slashes, as the regex `\/+$` of `normalizeDomain` does. -/
def stripTrailSlashes (s : String) : String :=
  ⟨(s.data.reverse.dropWhile (fun c => c = '/')).reverse⟩

/-- The string branch of `normalizeDomain`:
`val.trim().replace(/^https?:\/\//i, '').replace(/\/+$/g, '')`. -/
def normalizeDomainStr (s : String) : String :=
  stripTrailSlashes (stripScheme (jsTrim s))

/-- A truthy property (`if (val.k)`): the key must be present with a truthy
value. -/
def truthyField (fs : List (String × LVal)) (k : String) : Option LVal :=
  match getField fs k with
  | some v => if truthy v then some v else none
  | none => none

/-- Fuel-indexed body of `normalizeDomain` of `server.js`.  Falsy inputs give
`null`; strings are trimmed and stripped of scheme and trailing slashes;
numbers stringify; objects recurse into the first truthy of the
`domain`/`url`/`name`/`host`/`es` fields, and otherwise stringify — a plain
object stringifies to `"[object Object]"` and yields `null`, while an array
(also `typeof 'object'`, with none of those properties) stringifies to its
joined elements and re-enters the string branch.  The fuel only bounds the
object-field recursion depth; `normalizeDomain` below always supplies enough
fuel, keeping the definition kernel-computable. -/
def normalizeDomainF : ℕ → LVal → Option String
  | 0, _ => none
  | _ + 1, .undefined => none
  | _ + 1, .jnull => none
  | _ + 1, .bool _ => none
  | _ + 1, .num q => if q = 0 then none else some (jsToString (.num q))
  | _ + 1, .str s => if s = "" then none else some (normalizeDomainStr s)
  | fuel + 1, .obj fs =>
    match truthyField fs "domain" with
    | some d => normalizeDomainF fuel d
    | none =>
      match truthyField fs "url" with
      | some d => normalizeDomainF fuel d
      | none =>
        match truthyField fs "name" with
        | some d => normalizeDomainF fuel d
        | none =>
          match truthyField fs "host" with
          | some d => normalizeDomainF fuel d
          | none =>
            match truthyField fs "es" with
            | some d => normalizeDomainF fuel d
            | none => none
  | _ + 1, .arr l =>
    let s := jsToString (.arr l)
    if s = "[object Object]" then none
    else if s = "" then none
    else some (normalizeDomainStr s)

mutual

/-- Structural size of an `LVal`, bounding the object-nesting depth. -/
def lvalSize : LVal → ℕ
  | .obj fs => 1 + lvalFieldsSize fs
  | .arr l => 1 + lvalElemsSize l
  | _ => 1

/-- Structural size of an object's field list. -/
def lvalFieldsSize : List (String × LVal) → ℕ
  | [] => 0
  | (_, v) :: rest => 1 + lvalSize v + lvalFieldsSize rest

/-- Structural size of an array's element list. -/
def lvalElemsSize : List LVal → ℕ
  | [] => 0
  | v :: rest => 1 + lvalSize v + lvalElemsSize rest

end

/-- `normalizeDomain` of `server.js`; `lvalSize v` strictly bounds the
object-field recursion depth, so this fuel is always sufficient. -/
def normalizeDomain (v : LVal) : Option String :=
  normalizeDomainF (lvalSize v + 1) v

/-- One character of a host label: `[a-z0-9-]` case-insensitively. -/
def isHostLabelChar (c : Char) : Bool :=
  c.isAlpha || c.isDigit || c = '-'

/-- `isLikelyHost` of `server.js`: the regex
`^(?:[a-z0-9-]+\.)+[a-z]{2,}$/i`, phrased over the dot-separated parts: at
least one label plus a final alphabetic part of length at least two. -/
def isLikelyHost (s : String) : Bool :=
  let parts := splitCh '.' s.data
  decide (2 ≤ parts.length) &&
    (parts.dropLast.all (fun p => !p.isEmpty && p.all isHostLabelChar)) &&
    (match parts.getLast? with
     | some tld => decide (2 ≤ tld.length) && tld.all Char.isAlpha
     | none => false)

/-- The test `/\.tiendanube\.com$/i`. -/
def endsWithTn (s : String) : Bool :=
  List.isSuffixOf ".tiendanube.com".data (s.data.map lowerChar)

/-- `pickBestDomain` of `server.js`: normalize every entry, drop falsy
results, prefer the first non-platform domain, else the first entry. -/
def pickBestDomain (domains : List LVal) : Option String :=
  let list := domains.filterMap (fun d =>
    match normalizeDomain d with
    | some s => if s = "" then none else some s
    | none => none)
  if list.isEmpty then none
  else
    match list.find? (fun d => !endsWithTn d) with
    | some c => some c
    | none => list.head?

/-- `resolveDomainOverrides` of `server.js`, with the request query value and
the `DOMAINS_MAP` environment string passed explicitly. -/
def resolveDomainOverrides (qd : LVal) (domainsMap : String) (storeId : String) :
    Option String :=
  let fromQuery : Option String :=
    match normalizeDomain qd with
    | some h => if h ≠ "" && isLikelyHost h && !endsWithTn h then some h else none
    | none => none
  match fromQuery with
  | some h => some h
  | none =>
    if domainsMap = "" then none
    else
      let pairs := ((splitStr ',' domainsMap).map jsTrim).filter (fun s => s ≠ "")
      match pairs.find? (fun pr => List.isPrefixOf (storeId ++ ":").data pr.data) with
      | none => none
      | some hit =>
        let val := String.intercalate ":" ((splitStr ':' hit).drop 1)
        match normalizeDomain (.str val) with
        | some host => if host ≠ "" && isLikelyHost host then some host else none
        | none => none

/-- The element preprocessing `d?.domain ?? d` of the `/domains` branch. -/
def domainFieldOrSelf (d : LVal) : LVal :=
  match d with
  | .obj fs =>
    match getField fs "domain" with
    | some v => if looseNull v then d else v
    | none => d
  | _ => d

/-- The `/domains` try-block of `getPublicDomain`: a failed call is swallowed
(`none`); an array response is mapped through
`normalizeDomain(d?.domain ?? d)` and fed to `pickBestDomain`. -/
def tryDomainsEp (res : Except ℕ LVal) : Option String :=
  match res with
  | .error _ => none
  | .ok v =>
    let domains : List LVal :=
      match v with
      | .arr l => l.map (fun d =>
          match normalizeDomain (domainFieldOrSelf d) with
          | some s => .str s
          | none => .jnull)
      | _ => []
    pickBestDomain domains

/-- Property read on a store response object (non-objects have only
`undefined` properties). -/
def storeField (store : LVal) (k : String) : LVal :=
  match store with
  | .obj fs => fieldD fs k
  | _ => .undefined

/-- JS `a || b` on `string | null` values: keep `a` when truthy. -/
def orTruthyStr (a b : Option String) : Option String :=
  match a with
  | some s => if s ≠ "" then some s else b
  | none => b

/-- The `/store` try-block of `getPublicDomain`: a failed call is swallowed;
otherwise pick from `store.domains` / `store.domain` arrays, falling back to
`original_domain` then `store_domain`, and accept only a likely host. -/
def tryStoreEp (res : Except ℕ LVal) : Option String :=
  match res with
  | .error _ => none
  | .ok store =>
    let domainsFromStore : List LVal :=
      match storeField store "domains" with
      | .arr l => l
      | _ =>
        match storeField store "domain" with
        | .arr l => l
        | _ => []
    let pick := orTruthyStr (pickBestDomain domainsFromStore)
      (orTruthyStr (normalizeDomain (storeField store "original_domain"))
        (normalizeDomain (storeField store "store_domain")))
    match pick with
    | some s => if s ≠ "" && isLikelyHost s then some s else none
    | none => none

/-- `getPublicDomain` of `server.js`: request/static override, then the
`/domains` endpoint, then the `/store` endpoint (each remote failure
swallowed), then the deterministic fallback `{storeId}.tiendanube.com`.
The two remote results are passed as `Except` values whose error carries the
HTTP status of the failure.  The function is total: no input makes it
fail. -/
def getPublicDomain (qd : LVal) (domainsMap : String) (storeId : String)
    (domainsRes storeRes : Except ℕ LVal) : String :=
  match resolveDomainOverrides qd domainsMap storeId with
  | some h => h
  | none =>
    match tryDomainsEp domainsRes with
    | some h => h
    | none =>
      match tryStoreEp storeRes with
      | some h => h
      | none => storeId ++ ".tiendanube.com"

/-! ### Raw upstream records and flattened feed items -/

/-- A product image as read by `chooseImage` (`im.id`, `im.src`, `im.url`). -/
structure Image where
  id : LVal := .undefined
  src : LVal := .undefined
  url : LVal := .undefined

/-- A raw variant, with every field a dynamic JS value as delivered by the
upstream API. -/
structure Variant where
  id : LVal := .undefined
  name : LVal := .undefined
  price : LVal := .undefined
  promotional_price : LVal := .undefined
  stock_management : LVal := .undefined
  stock : LVal := .undefined
  image_id : LVal := .undefined

/-- A raw product.  `variants` and `images` are `none` when the field is
absent or not an array (the source guards both with `Array.isArray`). -/
structure Product where
  id : LVal := .undefined
  name : LVal := .undefined
  description : LVal := .undefined
  handle : LVal := .undefined
  variants : Option (List Variant) := none
  images : Option (List Image) := none
  brand : LVal := .undefined
  vendor : LVal := .undefined
  manufacturer : LVal := .undefined
  attributes : LVal := .undefined

/-- The empty JS object `{}` viewed as a product (used for
`it.rawProduct || {}` in the serializer). -/
def Product.empty : Product := {}

/-- A flattened feed item as built by `buildItemFromVariant` /
`flattenItems`.  `price` and `sale_price` are JS `string | null`. -/
structure FeedItem where
  item_id : String
  title : String
  description : String
  handleSlug : String
  image_link : LVal
  price : Option String
  sale_price : Option String
  availability : String
  rawProduct : Option Product
  rawVariant : Option Variant

/-- `chooseImage` of `server.js`: prefer the image matched by the variant's
`image_id` (comparing `String(im.id) === String(v.image_id)`), else the
product's first image (`src` falling back to `url`), else `""`. -/
def chooseImage (p : Product) (v : Option Variant) : LVal :=
  let imgs := p.images.getD []
  let fromFirst : LVal :=
    match imgs with
    | [] => .str ""
    | im :: _ =>
      if truthy im.src then im.src else if truthy im.url then im.url else .str ""
  match v with
  | none => fromFirst
  | some vv =>
    if truthy vv.image_id ∧ ¬ imgs.isEmpty then
      match imgs.find? (fun im => jsToString im.id == jsToString vv.image_id) with
      | some hit =>
        if truthy hit.src then hit.src else if truthy hit.url then hit.url else .str ""
      | none => fromFirst
    else fromFirst

/-- The variant identifier string `v?.id != null ? String(v.id) : ''`. -/
def variantIdStr (v : Variant) : String :=
  if looseNull v.id then "" else jsToString v.id

/-- `buildItemFromVariant` of `server.js`. -/
def buildItemFromVariant (p : Product) (v : Variant) (productId titleBase descBase
    handleSlug : String) : FeedItem :=
  let variantId := variantIdStr v
  let item_id := if variantId ≠ "" then productId ++ "-" ++ variantId else productId
  let variantName := normalizeText (getLocalized v.name)
  let title :=
    if variantName ≠ "" ∧ toLowerStr variantName ≠ "default" then
      titleBase ++ " - " ++ variantName
    else titleBase
  let regular := toMoney v.price
  let promo := toMoney v.promotional_price
  let sale_price :=
    if optTruthy regular ∧ optTruthy promo then
      match parseJsNumber (regular.getD ""), parseJsNumber (promo.getD "") with
      | some r, some pnum => if 0 < pnum ∧ pnum < r then promo else none
      | _, _ => none
    else none
  let availability :=
    if ¬ truthy v.stock_management then "in_stock"
    else if ¬ looseNull v.stock ∧ numPositive v.stock then "in_stock"
    else "out_of_stock"
  { item_id := item_id
    title := title
    description := descBase
    handleSlug := handleSlug
    image_link := chooseImage p (some v)
    price := regular
    sale_price := sale_price
    availability := availability
    rawProduct := some p
    rawVariant := some v }

/-- The product identifier string
`p?.id != null ? String(p.id) : normalizeText(getLocalized(p?.handle))`. -/
def productIdStr (p : Product) : String :=
  if looseNull p.id then normalizeText (getLocalized p.handle) else jsToString p.id

/-- `titleBase` of the `flattenItems` loop. -/
def titleBaseStr (p : Product) : String :=
  normalizeText (getLocalized p.name)

/-- `descBase` of the `flattenItems` loop
(`normalizeText(getLocalized(p?.description)) || titleBase`). -/
def descBaseStr (p : Product) : String :=
  let d := normalizeText (getLocalized p.description)
  if d ≠ "" then d else titleBaseStr p

/-- `handleSlug` of the `flattenItems` loop
(`normalizeText(getLocalized(p?.handle)) || productId`). -/
def handleSlugStr (p : Product) : String :=
  let h := normalizeText (getLocalized p.handle)
  if h ≠ "" then h else productIdStr p

/-- The items contributed by one product inside the `flattenItems` loop of
`server.js`. -/
def productItems (mode : String) (p : Product) : List FeedItem :=
  let productId := productIdStr p
  let titleBase := titleBaseStr p
  let descBase := descBaseStr p
  let handleSlug := handleSlugStr p
  match p.variants.getD [] with
  | [] =>
    [{ item_id := productId
       title := titleBase
       description := descBase
       handleSlug := handleSlug
       image_link := chooseImage p none
       price := none
       sale_price := none
       availability := "out_of_stock"
       rawProduct := some p
       rawVariant := none }]
  | v :: vs =>
    if mode = "first" then
      [buildItemFromVariant p v productId titleBase descBase handleSlug]
    else
      (v :: vs).map (fun w => buildItemFromVariant p w productId titleBase descBase handleSlug)

/-- `flattenItems` of `server.js`, with the startup constant `VARIANT_MODE`
passed explicitly. -/
def flattenItems (mode : String) (products : List Product) : List FeedItem :=
  products.flatMap (productItems mode)

/-- The startup computation
`VARIANT_MODE = (process.env.VARIANT_MODE || 'split').toLowerCase()`. -/
def variantModeOf (env : Option String) : String :=
  toLowerStr (match env with
    | some s => if s ≠ "" then s else "split"
    | none => "split")

/-! ### Brand resolution -/

/-- The startup brand configuration (`BRAND_MAP` and `DEFAULT_BRAND`
environment values). -/
structure Config where
  brandMap : String := ""
  defaultBrand : String := ""

/-- `resolveBrandOverride` of `server.js`: look the store up in the
comma-separated `BRAND_MAP` (`"store:brand,..."`), returning the trimmed
value after the first colon of the first matching pair, else `""`. -/
def resolveBrandOverride (brandMap : String) (storeId : String) : String :=
  if brandMap = "" then ""
  else
    let pairs := ((splitStr ',' brandMap).map jsTrim).filter (fun s => s ≠ "")
    match pairs.find? (fun pr => List.isPrefixOf (storeId ++ ":").data pr.data) with
    | none => ""
    | some hit => jsTrim (String.intercalate ":" ((splitStr ':' hit).drop 1))

/-- `typeof v === 'object'` for a truthy value: plain objects and arrays
(`null` is also `typeof 'object'` but falsy, so the source's combined
`p?.attributes && typeof ... === 'object'` guard is exactly this test). -/
def isObjLike : LVal → Bool
  | .obj _ => true
  | .arr _ => true
  | _ => false

/-- Property read used on the attributes bag (arrays expose no `brand` /
`marca` property). -/
def attrProp (v : LVal) (k : String) : LVal :=
  match v with
  | .obj fs => fieldD fs k
  | _ => .undefined

/-- The initial `brandVal` of `getBrandForProduct`:
`''`, then `if (p?.brand) { ... }` preferring the nested `name`. -/
def brandInit (b : LVal) : LVal :=
  if truthy b then
    match b with
    | .obj fs =>
      if truthy (fieldD fs "name") then getLocalized (fieldD fs "name")
      else getLocalized b
    | _ => getLocalized b
  else .str ""

/-- One `if (!brandVal && p?.field) brandVal = getLocalized(p.field);`
statement of `getBrandForProduct` (used for `vendor` and `manufacturer`). -/
def brandStep (b raw : LVal) : LVal :=
  if ¬ truthy b ∧ truthy raw then getLocalized raw else b

/-- The attributes statement of `getBrandForProduct`:
`if (!brandVal && p?.attributes && typeof p.attributes === 'object') { const
possible = p.attributes.brand || p.attributes.marca; if (possible) brandVal =
getLocalized(possible); }`. -/
def brandAttrStep (b attrs : LVal) : LVal :=
  if ¬ truthy b ∧ isObjLike attrs then
    let pa := attrProp attrs "brand"
    let possible := if truthy pa then pa else attrProp attrs "marca"
    if truthy possible then getLocalized possible else b
  else b

/-- The tail of `getBrandForProduct`:
`brandVal = String(brandVal || '').trim(); if (!brandVal && DEFAULT_BRAND)
brandVal = DEFAULT_BRAND.trim(); return brandVal || '';`. -/
def brandFinal (dflt : String) (b4 : LVal) : String :=
  let s := jsTrim (if truthy b4 then jsToString b4 else "")
  if s = "" ∧ dflt ≠ "" then jsTrim dflt else s

/-- `getBrandForProduct` of `server.js`, the `brandVal` mutation chain
rendered as composed steps. -/
def getBrandForProduct (cfg : Config) (storeId : String) (p : Product) : String :=
  if resolveBrandOverride cfg.brandMap storeId ≠ "" then
    resolveBrandOverride cfg.brandMap storeId
  else
    brandFinal cfg.defaultBrand
      (brandAttrStep
        (brandStep (brandStep (brandInit p.brand) p.vendor) p.manufacturer)
        p.attributes)

/-- The brand candidate extracted from the structured `brand` field (nested
`name` preferred), `undefined` when the field is falsy. -/
def brandFieldExtract (b : LVal) : LVal :=
  if truthy b then
    match b with
    | .obj fs =>
      if truthy (fieldD fs "name") then getLocalized (fieldD fs "name")
      else getLocalized b
    | _ => getLocalized b
  else .undefined

/-- The brand candidate from a plain field (`vendor` / `manufacturer`). -/
def plainExtract (v : LVal) : LVal :=
  if truthy v then getLocalized v else .undefined

/-- The brand candidate from the attributes bag (`brand` preferred over
`marca`). -/
def attrsExtract (a : LVal) : LVal :=
  if isObjLike a then
    let pa := attrProp a "brand"
    let possible := if truthy pa then pa else attrProp a "marca"
    if truthy possible then getLocalized possible else .undefined
  else .undefined

/-- The tail of the amended contract: the trimmed string form of the found
candidate when nonempty, else the trimmed global default, else `""`. -/
def candFinal (dflt : String) (c : Option LVal) : String :=
  let s :=
    match c with
    | some v => jsTrim (jsToString v)
    | none => ""
  if s ≠ "" then s
  else if dflt ≠ "" then jsTrim dflt
  else ""

/-- The amended brand-precedence contract: the per-store override if its
trimmed value is nonempty, else the trimmed string form of the first truthy
candidate among brand / vendor / manufacturer / attributes-bag (each
candidate already localized, and `undefined` when its raw field is falsy),
falling back to the trimmed global default when that string is empty or no
candidate is truthy, and `""` when there is no default either. -/
def getBrandResolved (cfg : Config) (storeId : String) (p : Product) : String :=
  if resolveBrandOverride cfg.brandMap storeId ≠ "" then
    resolveBrandOverride cfg.brandMap storeId
  else
    candFinal cfg.defaultBrand
      ([brandFieldExtract p.brand, plainExtract p.vendor,
        plainExtract p.manufacturer, attrsExtract p.attributes].find? truthy)

/-! ### XML serialization -/

/-- One character of `xmlEscape`.  The source applies five sequential global
replaces (`& < > " '`); since no replacement output contains a character that
a later replace targets, the sequence coincides with this single
character-wise expansion. -/
def xmlEscapeChar (c : Char) : List Char :=
  if c = '&' then "&amp;".data
  else if c = '<' then "&lt;".data
  else if c = '>' then "&gt;".data
  else if c = '"' then "&quot;".data
  else if c = '\'' then "&apos;".data
  else [c]

/-- `xmlEscape` of `server.js`: `String(s || '')` then entity escaping. -/
def xmlEscape (v : LVal) : String :=
  ⟨(if truthy v then jsToString v else "").data.flatMap xmlEscapeChar⟩

/-- The global replace of `"]]>"` by `"]]]]><![CDATA[>"` (left-to-right,
non-overlapping, as a JS global regex replace proceeds). -/
def cdataFix : List Char → List Char
  | ']' :: ']' :: '>' :: rest => "]]]]><![CDATA[>".data ++ cdataFix rest
  | c :: rest => c :: cdataFix rest
  | [] => []

/-- `safeCdata` of `server.js` on its string call sites
(`String(s || '')` is the identity there). -/
def safeCdataStr (s : String) : String :=
  ⟨cdataFix s.data⟩

/-- `productLink` of `server.js`:
`https://{host}/productos/{handle}/?utm_source=xml` with
`host = normalizeDomain(storeDomain) || 'invalid-domain'`. -/
def productLink (storeDomain : LVal) (handle : String) : String :=
  let host :=
    match normalizeDomain storeDomain with
    | some h => if h ≠ "" then h else "invalid-domain"
    | none => "invalid-domain"
  "https://" ++ host ++ "/productos/" ++ handle ++ "/?utm_source=xml"

/-- `normalizeDomain(storeDomain) || 'invalid-domain'` of `buildXmlFeed`. -/
def safeDomainOf (storeDomain : LVal) : String :=
  match normalizeDomain storeDomain with
  | some h => if h ≠ "" then h else "invalid-domain"
  | none => "invalid-domain"

/-- The conditional `g:image_link` line. -/
def imageBlock (link : LVal) : List String :=
  if truthy link then ["    <g:image_link>" ++ xmlEscape link ++ "</g:image_link>"]
  else []

/-- The conditional `g:sale_price` line. -/
def saleBlock (sale : Option String) : List String :=
  if optTruthy sale then
    ["    <g:sale_price>" ++ xmlEscape (.str (sale.getD "")) ++ " ARS</g:sale_price>"]
  else []

/-- The conditional `g:brand` line: an empty brand is omitted entirely. -/
def brandBlock (brandVal : String) : List String :=
  if brandVal ≠ "" then
    ["    <g:brand><![CDATA[" ++ safeCdataStr brandVal ++ "]]></g:brand>"]
  else []

/-- The per-item body of the `buildXmlFeed` loop of `server.js`: an item
whose `price` is falsy contributes no lines at all (`continue`); otherwise
the fixed sequence of element lines, with the optional image, sale-price and
brand lines in their source positions. -/
def itemLines (cfg : Config) (storeId : String) (safeDomain : String)
    (it : FeedItem) : List String :=
  let brandVal := getBrandForProduct cfg storeId (it.rawProduct.getD Product.empty)
  if ¬ optTruthy it.price then []
  else
    let link := productLink (.str safeDomain) it.handleSlug
    ["  <item>",
     "    <g:id>" ++ xmlEscape (.str it.item_id) ++ "</g:id>",
     "    <g:title><![CDATA[" ++ safeCdataStr it.title ++ "]]></g:title>",
     "    <g:description><![CDATA[" ++ safeCdataStr it.description ++ "]]></g:description>",
     "    <g:link>" ++ xmlEscape (.str link) ++ "</g:link>"]
    ++ imageBlock it.image_link
    ++ ["    <g:availability>" ++ xmlEscape (.str it.availability) ++ "</g:availability>",
        "    <g:price>" ++ xmlEscape (.str (it.price.getD "")) ++ " ARS</g:price>"]
    ++ saleBlock it.sale_price
    ++ ["    <g:condition>new</g:condition>"]
    ++ brandBlock brandVal
    ++ ["    <g:identifier_exists>false</g:identifier_exists>",
        "  </item>"]

/-- `buildXmlFeed` of `server.js`: the fixed document envelope (one channel
with title, link and description) around the joined per-item lines. -/
def buildXmlFeed (cfg : Config) (items : List FeedItem) (storeDomain : LVal)
    (storeId : String) : String :=
  String.intercalate "\n"
    ["<?xml version=\"1.0\" encoding=\"UTF-8\"?>",
     "<rss version=\"2.0\" xmlns:g=\"http://base.google.com/ns/1.0\">",
     "<channel>",
     "  <title>Feed de Productos Tiendanube</title>",
     "  <link>https://" ++ xmlEscape (.str (safeDomainOf storeDomain)) ++ "/</link>",
     "  <description>Feed generado desde la API de Tiendanube</description>",
     String.intercalate "\n"
       (items.flatMap (itemLines cfg storeId (safeDomainOf storeDomain))),
     "</channel>",
     "</rss>"]

/-! ### General lemmas about the flattener -/

/-- Flattening a one-product list yields that product's items. -/
theorem flattenItems_singleton (mode : String) (p : Product) :
    flattenItems mode [p] = productItems mode p := by
  simp [flattenItems]

/-- In every mode other than `first`, a product with a nonempty variant array
contributes one item per variant, in variant order. -/
theorem productItems_ne_first (mode : String) (p : Product) (v : Variant)
    (vs : List Variant) (hm : mode ≠ "first") (h : p.variants = some (v :: vs)) :
    productItems mode p =
      (v :: vs).map (fun w =>
        buildItemFromVariant p w (productIdStr p) (titleBaseStr p) (descBaseStr p)
          (handleSlugStr p)) := by
  simp [productItems, h, hm]

/-- The mode string only matters through the comparison with `"first"`. -/
theorem productItems_mode_eq_split (mode : String) (p : Product) (hm : mode ≠ "first") :
    productItems mode p = productItems "split" p := by
  unfold productItems
  cases h : p.variants.getD [] with
  | nil => rfl
  | cons v vs => simp [hm]

/-- Prepending a fixed string is injective. -/
theorem string_append_left_injective (pre : String) :
    Function.Injective (fun s => pre ++ s) := by
  intro a b h
  apply String.ext
  have h2 : (pre ++ a).data = (pre ++ b).data := congrArg String.data h
  rw [String.data_append, String.data_append] at h2
  exact List.append_cancel_left h2

/-! ### Concrete inputs used by witnesses and scenarios -/

/-- The `{id:10, price:"50.00", stock_management:true, stock:0}` variant of the
spec scenario. -/
def shoeV10 : Variant :=
  { id := .num 10, price := .str "50.00", stock_management := .bool true, stock := .num 0 }

/-- The `{id:11, price:"55.00", stock_management:false}` variant of the spec
scenario. -/
def shoeV11 : Variant :=
  { id := .num 11, price := .str "55.00", stock_management := .bool false }

/-- The `{id:1, name:"Shoe", variants:[...]}` product of the spec scenario. -/
def shoeProduct : Product :=
  { id := .num 1, name := .str "Shoe", variants := some [shoeV10, shoeV11] }

/-! ### Claim C1: price and sale-price resolution -/

/-- The sale-price condition actually applied by `buildItemFromVariant`: both
money fields normalize via `toMoney` to truthy strings, and the numeric
comparison `0 < promo < price` is performed on the re-parsed normalized
two-decimal strings. -/
def saleCond (vprice vpromo : LVal) : Bool :=
  optTruthy (toMoney vprice) && optTruthy (toMoney vpromo) &&
    (match parseJsNumber ((toMoney vprice).getD ""),
        parseJsNumber ((toMoney vpromo).getD "") with
     | some r, some pnum => decide (0 < pnum) && decide (pnum < r)
     | _, _ => false)

/-- The sale-price branch of `buildItemFromVariant`, rephrased through the
single boolean condition it tests. -/
theorem sale_branch_eq (ro po : Option String) :
    (if optTruthy ro = true ∧ optTruthy po = true then
       match parseJsNumber (ro.getD ""), parseJsNumber (po.getD "") with
       | some r, some pnum => if 0 < pnum ∧ pnum < r then po else none
       | _, _ => none
     else none) =
    (if (optTruthy ro && optTruthy po &&
        match parseJsNumber (ro.getD ""), parseJsNumber (po.getD "") with
        | some r, some pnum => decide (0 < pnum) && decide (pnum < r)
        | _, _ => false) = true then po else none) := by
  by_cases h1 : optTruthy ro = true <;> by_cases h2 : optTruthy po = true <;>
    simp [h1, h2]
  rcases parseJsNumber (ro.getD "") with _ | a <;>
    rcases parseJsNumber (po.getD "") with _ | b <;>
    simp [decide_eq_true_eq]

/-- C1, counterexample to the claim as stated: for the variant
`{price: "100.004", promotional_price: "100.001"}` both fields are present and
numeric and `0 < promotional_price < price` holds on the raw values, yet the
produced item has `sale_price = null`, because `buildItemFromVariant`
compares the values only after rounding both to two decimals with
`toFixed(2)` (`"100.00"` vs `"100.00"`). -/
theorem sale_price_raw_comparison_counterexample :
    jsToNumber (LVal.str "100.004") = some (mkRat 100004 1000) ∧
    jsToNumber (LVal.str "100.001") = some (mkRat 100001 1000) ∧
    (0 : ℚ) < mkRat 100001 1000 ∧
    mkRat 100001 1000 < mkRat 100004 1000 ∧
    optTruthy (toMoney (LVal.str "100.004")) = true ∧
    optTruthy (toMoney (LVal.str "100.001")) = true ∧
    (buildItemFromVariant {}
        ({ price := .str "100.004", promotional_price := .str "100.001" } : Variant)
        "1" "t" "d" "h").sale_price = none := by
  decide

/-- C1 (amended): the item's `price` is the `toMoney` normalization of the
variant's `price`; `sale_price` is the `toMoney` normalization of
`promotional_price` exactly when both normalize and the normalized
two-decimal values satisfy `0 < promotional_price < price`, and is `null` in
every other case.  In particular `price:"100.00", promotional_price:"80.00"`
yields `price="100.00"`, `sale_price="80.00"`, while
`promotional_price:"120.00"` yields `sale_price=null`. -/
theorem price_sale_resolution (p : Product) (v : Variant) (pid tb db hs : String) :
    (buildItemFromVariant p v pid tb db hs).price = toMoney v.price ∧
    (buildItemFromVariant p v pid tb db hs).sale_price =
      (if saleCond v.price v.promotional_price then toMoney v.promotional_price else none) ∧
    (buildItemFromVariant {}
        ({ price := .str "100.00", promotional_price := .str "80.00" } : Variant)
        "1" "t" "d" "h").price = some "100.00" ∧
    (buildItemFromVariant {}
        ({ price := .str "100.00", promotional_price := .str "80.00" } : Variant)
        "1" "t" "d" "h").sale_price = some "80.00" ∧
    (buildItemFromVariant {}
        ({ price := .str "100.00", promotional_price := .str "120.00" } : Variant)
        "1" "t" "d" "h").price = some "100.00" ∧
    (buildItemFromVariant {}
        ({ price := .str "100.00", promotional_price := .str "120.00" } : Variant)
        "1" "t" "d" "h").sale_price = none := by
  refine ⟨rfl, ?_, by decide, by decide, by decide, by decide⟩
  simp only [buildItemFromVariant, saleCond]
  exact sale_branch_eq (toMoney v.price) (toMoney v.promotional_price)

/-! ### Claim C2: availability -/

/-- C2: an item's availability is `in_stock` exactly when the variant does not
track stock (falsy `stock_management`) or tracks stock with a non-nullish
numeric stock value greater than zero; it is `out_of_stock` in every other
case.  The spec scenario (product 1 with variants 10 and 11 in split mode)
evaluates as stated. -/
theorem availability_rule (p : Product) (v : Variant) (pid tb db hs : String) :
    ((buildItemFromVariant p v pid tb db hs).availability = "in_stock" ↔
      (truthy v.stock_management = false ∨
        (truthy v.stock_management = true ∧ looseNull v.stock = false ∧
          numPositive v.stock = true))) ∧
    ((buildItemFromVariant p v pid tb db hs).availability = "in_stock" ∨
      (buildItemFromVariant p v pid tb db hs).availability = "out_of_stock") ∧
    (flattenItems "split" [shoeProduct]).map (fun it => (it.item_id, it.availability)) =
      [("1-10", "out_of_stock"), ("1-11", "in_stock")] := by
  refine ⟨?_, ?_, by decide⟩ <;>
    simp only [buildItemFromVariant] <;>
    by_cases h1 : truthy v.stock_management <;>
    by_cases h2 : looseNull v.stock = false ∧ numPositive v.stock = true <;>
    simp_all

/-! ### Claim C3: variant splitting produces N distinct items -/

/-- C3: in split mode a product with a nonempty variant array produces exactly
one precursor item per variant, preserving order; provided each variant has a
non-nullish id with nonempty string form (`"{variant_id}"`), every `item_id`
is `"{product_id}-{variant_id}"`, and distinct variant-id strings give
pairwise-distinct `item_id`s. -/
theorem split_mode_items (p : Product) (vs : List Variant)
    (hvs : p.variants = some vs) (hne : vs ≠ [])
    (hid : ∀ v ∈ vs, variantIdStr v ≠ "")
    (hnd : (vs.map variantIdStr).Nodup) :
    (flattenItems "split" [p]).length = vs.length ∧
    (flattenItems "split" [p]).map (fun it => it.item_id) =
      vs.map (fun v => productIdStr p ++ "-" ++ variantIdStr v) ∧
    ((flattenItems "split" [p]).map (fun it => it.item_id)).Nodup := by
  cases vs with
  | nil => exact absurd rfl hne
  | cons v vs' =>
    have he : flattenItems "split" [p] =
        (v :: vs').map (fun w =>
          buildItemFromVariant p w (productIdStr p) (titleBaseStr p) (descBaseStr p)
            (handleSlugStr p)) := by
      rw [flattenItems_singleton, productItems_ne_first "split" p v vs' (by decide) hvs]
    have hm : (flattenItems "split" [p]).map (fun it => it.item_id) =
        (v :: vs').map (fun w => productIdStr p ++ "-" ++ variantIdStr w) := by
      rw [he, List.map_map]
      refine List.map_congr_left ?_
      intro w hw
      simp [buildItemFromVariant, hid w hw]
    refine ⟨by rw [he]; simp, hm, ?_⟩
    rw [hm]
    have hmm : (v :: vs').map (fun w => productIdStr p ++ "-" ++ variantIdStr w) =
        ((v :: vs').map variantIdStr).map (fun s => productIdStr p ++ "-" ++ s) := by
      rw [List.map_map]
      rfl
    rw [hmm]
    exact List.Nodup.map (string_append_left_injective (productIdStr p ++ "-")) hnd

/-- C3 witness: the spec scenario instantiates the hypotheses. -/
theorem split_mode_items_witness :
    (flattenItems "split" [shoeProduct]).length = ([shoeV10, shoeV11] : List Variant).length ∧
    (flattenItems "split" [shoeProduct]).map (fun it => it.item_id) =
      ([shoeV10, shoeV11] : List Variant).map
        (fun v => productIdStr shoeProduct ++ "-" ++ variantIdStr v) ∧
    ((flattenItems "split" [shoeProduct]).map (fun it => it.item_id)).Nodup :=
  split_mode_items shoeProduct [shoeV10, shoeV11] rfl (by simp) (by decide) (by decide)

/-! ### Claim C10: variant-mode configuration -/

/-- C10: the mode is the lowercased environment value (default `split`), and
every mode other than the exact string `"first"` makes the flattener behave
exactly as split mode, one item per variant for products with at least one
variant; `"first"` is reached only by exact (post-lowercasing) match. -/
theorem variant_mode_config (env : Option String) (ps : List Product) (p : Product)
    (vs : List Variant) :
    (variantModeOf env ≠ "first" →
      flattenItems (variantModeOf env) ps = flattenItems "split" ps) ∧
    (variantModeOf env ≠ "first" → p.variants = some vs → vs ≠ [] →
      (flattenItems (variantModeOf env) [p]).length = vs.length) ∧
    variantModeOf (some "FiRsT") = "first" ∧
    variantModeOf (some "SPLIT") = "split" ∧
    variantModeOf (some "anything-else") = "anything-else" ∧
    variantModeOf none = "split" := by
  have key : variantModeOf env ≠ "first" →
      flattenItems (variantModeOf env) ps = flattenItems "split" ps := by
    intro h
    have hfun : productItems (variantModeOf env) = productItems "split" :=
      funext (fun q => productItems_mode_eq_split (variantModeOf env) q h)
    simp [flattenItems, hfun]
  refine ⟨key, ?_, by decide, by decide, by decide, by decide⟩
  intro h hvs hne
  cases vs with
  | nil => exact absurd rfl hne
  | cons v vs' =>
    rw [flattenItems_singleton, productItems_ne_first (variantModeOf env) p v vs' h hvs]
    simp

/-- C10 witness: instantiation at a concrete uppercase environment value and
the scenario product. -/
theorem variant_mode_config_witness :
    flattenItems (variantModeOf (some "SPLIT")) [shoeProduct] =
      flattenItems "split" [shoeProduct] ∧
    (flattenItems (variantModeOf (some "SPLIT")) [shoeProduct]).length =
      ([shoeV10, shoeV11] : List Variant).length :=
  ⟨(variant_mode_config (some "SPLIT") [shoeProduct] shoeProduct [shoeV10, shoeV11]).1
      (by decide),
    (variant_mode_config (some "SPLIT") [shoeProduct] shoeProduct [shoeV10, shoeV11]).2.1
      (by decide) rfl (by simp)⟩

/-! ### Claim C4: domain resolution never fails -/

/-- C4: `getPublicDomain` is a total function (no input makes it throw); any
failure of the remote `/domains` or `/store` call is swallowed — the two
try-blocks yield `none` on every error, independently of the status — and
when the request override and static mapping yield no host and both remote
calls fail, the result is exactly the fallback `"{storeId}.tiendanube.com"`,
whatever the two failure statuses were. -/
theorem domain_resolution_fallback (qd : LVal) (dm sid : String) (e1 e2 : ℕ)
    (h : resolveDomainOverrides qd dm sid = none) :
    getPublicDomain qd dm sid (.error e1) (.error e2) = sid ++ ".tiendanube.com" ∧
    tryDomainsEp (.error e1) = none ∧
    tryStoreEp (.error e2) = none ∧
    (∀ s1 s2 : ℕ, getPublicDomain qd dm sid (.error s1) (.error s2) =
      getPublicDomain qd dm sid (.error e1) (.error e2)) := by
  refine ⟨?_, rfl, rfl, ?_⟩
  · simp [getPublicDomain, h, tryDomainsEp, tryStoreEp]
  · intro s1 s2
    simp [getPublicDomain, h, tryDomainsEp, tryStoreEp]

/-- C4 witness: a store with no query override, empty `DOMAINS_MAP`, and
failing remote calls (401 and 404). -/
theorem domain_resolution_fallback_witness :
    getPublicDomain .undefined "" "123" (.error 401) (.error 404) = "123.tiendanube.com" ∧
    tryDomainsEp (.error 401) = none ∧
    tryStoreEp (.error 404) = none ∧
    (∀ s1 s2 : ℕ, getPublicDomain LVal.undefined "" "123" (.error s1) (.error s2) =
      getPublicDomain .undefined "" "123" (.error 401) (.error 404)) :=
  domain_resolution_fallback .undefined "" "123" 401 404 (by decide)

/-! ### Claim C5: product pagination -/

/-- The `while (true)` loop of `fetchAllProducts` of `server.js`, with the
upstream modelled as a function from page number to the `tnFetch` outcome:
`.error s` is the exception raised by `tnFetch` on a non-success HTTP status
`s` (it propagates, aborting the whole fetch), and `.ok data` is the parsed
JSON body.  A non-array or empty body breaks the loop; otherwise the page is
appended and the loop continues unless the page was shorter than the fixed
`per_page = 200`.  The fuel only bounds the number of iterations (the source
loop is unbounded when every page is full); `none` marks fuel exhaustion. -/
def fetchAllProductsAux (f : ℕ → Except ℕ LVal) :
    ℕ → ℕ → List LVal → Option (Except ℕ (List LVal))
  | 0, _, _ => none
  | fuel + 1, page, acc =>
    match f page with
    | .error s => some (.error s)
    | .ok data =>
      match data with
      | .arr l =>
        if l.isEmpty then some (.ok acc)
        else if l.length < 200 then some (.ok (acc ++ l))
        else fetchAllProductsAux f fuel (page + 1) (acc ++ l)
      | _ => some (.ok acc)

/-- `fetchAllProducts` of `server.js`: run the loop from page 1 with an empty
accumulator. -/
def fetchAllProducts (f : ℕ → Except ℕ LVal) (fuel : ℕ) :
    Option (Except ℕ (List LVal)) :=
  fetchAllProductsAux f fuel 1 []

/-- C5: one step of the pagination loop behaves exactly as specified — a
non-success status aborts the whole fetch with an error carrying that status
and no partial list; a nonempty page shorter than the fixed page size 200 is
appended (in request order, without deduplication) and the fetch stops; a
full page is appended and the fetch continues with the next page; an empty or
non-array page stops the fetch without contributing records. -/
theorem fetch_pagination (f : ℕ → Except ℕ LVal) (fuel page : ℕ)
    (acc l : List LVal) (s : ℕ) (d : LVal) :
    (f page = .error s →
      fetchAllProductsAux f (fuel + 1) page acc = some (.error s)) ∧
    (f page = .ok (.arr l) → l ≠ [] → l.length < 200 →
      fetchAllProductsAux f (fuel + 1) page acc = some (.ok (acc ++ l))) ∧
    (f page = .ok (.arr l) → l.length = 200 →
      fetchAllProductsAux f (fuel + 1) page acc =
        fetchAllProductsAux f fuel (page + 1) (acc ++ l)) ∧
    (f page = .ok (.arr []) →
      fetchAllProductsAux f (fuel + 1) page acc = some (.ok acc)) ∧
    (f page = .ok d → (∀ m, d ≠ .arr m) →
      fetchAllProductsAux f (fuel + 1) page acc = some (.ok acc)) := by
  refine ⟨?_, ?_, ?_, ?_, ?_⟩
  · intro hf
    simp [fetchAllProductsAux, hf]
  · intro hf hne hlen
    simp [fetchAllProductsAux, hf, List.isEmpty_iff, hne, hlen]
  · intro hf hlen
    have hne : l ≠ [] := by
      intro h
      subst h
      simp at hlen
    have hge : ¬ l.length < 200 := by omega
    simp [fetchAllProductsAux, hf, List.isEmpty_iff, hne, hge]
  · intro hf
    simp [fetchAllProductsAux, hf]
  · intro hf hd
    cases d with
    | arr m => exact absurd rfl (hd m)
    | undefined => simp [fetchAllProductsAux, hf]
    | jnull => simp [fetchAllProductsAux, hf]
    | bool b => simp [fetchAllProductsAux, hf]
    | num q => simp [fetchAllProductsAux, hf]
    | str t => simp [fetchAllProductsAux, hf]
    | obj fs => simp [fetchAllProductsAux, hf]

/-- Upstream stub: every page request fails with HTTP 503. -/
def pagesErrW : ℕ → Except ℕ LVal :=
  fun _ => .error 503

/-- Upstream stub: page 1 is full (200 identical records — also showing the
absence of deduplication), page 2 is short. -/
def pagesTwoW : ℕ → Except ℕ LVal :=
  fun p => if p = 1 then .ok (.arr (List.replicate 200 (.num 1))) else .ok (.arr [.num 2])

/-- C5 witness: the loop lemmas applied to the two concrete upstream stubs. -/
theorem fetch_pagination_witness :
    fetchAllProducts pagesErrW 1 = some (.error 503) ∧
    fetchAllProducts pagesTwoW 2 = some (.ok (List.replicate 200 (.num 1) ++ [.num 2])) := by
  have h1 := (fetch_pagination pagesErrW 0 1 [] [] 503 .undefined).1 rfl
  have h2 := (fetch_pagination pagesTwoW 1 1 [] (List.replicate 200 (.num 1)) 0 .undefined).2.2.1
    rfl (by rw [List.length_replicate])
  have h3 := (fetch_pagination pagesTwoW 0 2 (List.replicate 200 (.num 1)) [.num 2] 0
    .undefined).2.1 rfl (by simp) (by decide)
  exact ⟨h1, h2.trans h3⟩

/-! ### Claim C6: the serializer drops priceless items, keeps the envelope -/

/-- A `flatMap` ignores exactly the elements its body maps to `[]`. -/
theorem flatMap_filter_of_empty {α β : Type} (p : α → Bool) (f : α → List β)
    (hf : ∀ a, p a = false → f a = []) :
    ∀ l : List α, l.flatMap f = (l.filter p).flatMap f := by
  intro l
  induction l with
  | nil => rfl
  | cons a l ih =>
    cases hp : p a with
    | true => simp [List.filter_cons, hp, ih]
    | false => simp [List.filter_cons, hp, hf a hp, ih]

/-- An item with falsy price contributes no lines. -/
theorem itemLines_of_priceless (cfg : Config) (sid d : String) (it : FeedItem)
    (h : optTruthy it.price = false) : itemLines cfg sid d it = [] := by
  simp [itemLines, h]

set_option maxRecDepth 8192 in
/-- C6: the serializer silently omits items whose price is null or empty
(the document equals the one built from the price-filtered list, and a list
of only priceless items serializes exactly like the empty list), and it is a
total function always emitting the fixed single-channel envelope — witnessed
by the complete zero-item document for a concrete domain. -/
theorem serializer_priceless_and_envelope (cfg : Config) (items : List FeedItem)
    (d : LVal) (sid : String) :
    buildXmlFeed cfg items d sid =
      buildXmlFeed cfg (items.filter (fun it => optTruthy it.price)) d sid ∧
    ((∀ it ∈ items, optTruthy it.price = false) →
      buildXmlFeed cfg items d sid = buildXmlFeed cfg [] d sid) ∧
    buildXmlFeed cfg [] (.str "example.com") "1" =
      "<?xml version=\"1.0\" encoding=\"UTF-8\"?>\n<rss version=\"2.0\" xmlns:g=\"http://base.google.com/ns/1.0\">\n<channel>\n  <title>Feed de Productos Tiendanube</title>\n  <link>https://example.com/</link>\n  <description>Feed generado desde la API de Tiendanube</description>\n\n</channel>\n</rss>" := by
  have key : items.flatMap (itemLines cfg sid (safeDomainOf d)) =
      (items.filter (fun it => optTruthy it.price)).flatMap
        (itemLines cfg sid (safeDomainOf d)) :=
    flatMap_filter_of_empty _ _ (fun a ha => itemLines_of_priceless cfg sid _ a ha) items
  refine ⟨?_, ?_, by rfl⟩
  · unfold buildXmlFeed
    rw [key]
  · intro hall
    unfold buildXmlFeed
    rw [key, List.filter_eq_nil_iff.mpr (fun a ha => by simp [hall a ha])]

/-- A concrete priceless item (as produced for a product without variants). -/
def pricelessItem : FeedItem :=
  { item_id := "9", title := "T", description := "D", handleSlug := "h",
    image_link := .str "", price := none, sale_price := none,
    availability := "out_of_stock", rawProduct := none, rawVariant := none }

/-- C6 witness: the theorem applied to a one-priceless-item list. -/
theorem serializer_priceless_and_envelope_witness :
    buildXmlFeed {} [pricelessItem] (.str "example.com") "1" =
      buildXmlFeed {} [] (.str "example.com") "1" ∧
    buildXmlFeed {} [] (.str "example.com") "1" =
      "<?xml version=\"1.0\" encoding=\"UTF-8\"?>\n<rss version=\"2.0\" xmlns:g=\"http://base.google.com/ns/1.0\">\n<channel>\n  <title>Feed de Productos Tiendanube</title>\n  <link>https://example.com/</link>\n  <description>Feed generado desde la API de Tiendanube</description>\n\n</channel>\n</rss>" :=
  ⟨(serializer_priceless_and_envelope {} [pricelessItem] (.str "example.com") "1").2.1
      (by decide),
    (serializer_priceless_and_envelope {} [] (.str "example.com") "1").2.2⟩

/-! ### Claim C7: brand precedence -/

/-- Truthiness of the initial `brandVal` agrees with the brand candidate. -/
theorem brandInit_truthy (x : LVal) :
    truthy (brandInit x) = truthy (brandFieldExtract x) := by
  unfold brandInit brandFieldExtract
  by_cases tx : truthy x = true
  · rw [if_pos tx, if_pos tx]
  · rw [if_neg tx, if_neg tx]
    decide

/-- When the brand candidate is truthy, the initial `brandVal` is that
candidate. -/
theorem brandInit_eq_of_truthy (x : LVal)
    (h : truthy (brandFieldExtract x) = true) : brandInit x = brandFieldExtract x := by
  unfold brandInit brandFieldExtract
  by_cases tx : truthy x = true
  · rw [if_pos tx, if_pos tx]
  · unfold brandFieldExtract at h
    rw [if_neg tx] at h
    exact absurd h (by decide)

/-- A truthy accumulated `brandVal` passes through a step unchanged. -/
theorem brandStep_keep (b raw : LVal) (hb : truthy b = true) :
    brandStep b raw = b := by
  simp [brandStep, hb]

/-- Truthiness after a step is the disjunction with the step's candidate. -/
theorem brandStep_truthy (b raw : LVal) :
    truthy (brandStep b raw) = (truthy b || truthy (plainExtract raw)) := by
  by_cases tb : truthy b = true
  · simp [brandStep, tb]
  · have tbf : truthy b = false := Bool.eq_false_iff.mpr tb
    by_cases tr : truthy raw = true
    · simp [brandStep, plainExtract, tbf, tr]
    · have trf : truthy raw = false := Bool.eq_false_iff.mpr tr
      simp [brandStep, plainExtract, tbf, trf,
        show truthy LVal.undefined = false from rfl]

/-- A falsy accumulated `brandVal` is replaced by a truthy candidate. -/
theorem brandStep_new (b raw : LVal) (hb : truthy b = false)
    (hc : truthy (plainExtract raw) = true) : brandStep b raw = plainExtract raw := by
  have tr : truthy raw = true := by
    by_cases h : truthy raw = true
    · exact h
    · have hf : truthy raw = false := Bool.eq_false_iff.mpr h
      simp [plainExtract, hf, show truthy LVal.undefined = false from rfl] at hc
  simp [brandStep, plainExtract, hb, tr]

/-- A truthy accumulated `brandVal` passes through the attributes step. -/
theorem brandAttrStep_keep (b a : LVal) (hb : truthy b = true) :
    brandAttrStep b a = b := by
  simp [brandAttrStep, hb]

/-- Truthiness after the attributes step. -/
theorem brandAttrStep_truthy (b a : LVal) :
    truthy (brandAttrStep b a) = (truthy b || truthy (attrsExtract a)) := by
  by_cases tb : truthy b = true
  · simp [brandAttrStep, tb]
  · have tbf : truthy b = false := Bool.eq_false_iff.mpr tb
    by_cases ta : isObjLike a = true
    · by_cases tp : truthy (if truthy (attrProp a "brand") then
          attrProp a "brand" else attrProp a "marca") = true
      · simp [brandAttrStep, attrsExtract, tbf, ta, tp]
      · have tpf := Bool.eq_false_iff.mpr tp
        simp [brandAttrStep, attrsExtract, tbf, ta, tpf,
          show truthy LVal.undefined = false from rfl]
    · have taf : isObjLike a = false := Bool.eq_false_iff.mpr ta
      simp [brandAttrStep, attrsExtract, tbf, taf,
        show truthy LVal.undefined = false from rfl]

/-- A falsy accumulated `brandVal` is replaced by a truthy attributes
candidate. -/
theorem brandAttrStep_new (b a : LVal) (hb : truthy b = false)
    (hc : truthy (attrsExtract a) = true) : brandAttrStep b a = attrsExtract a := by
  by_cases ta : isObjLike a = true
  · by_cases tp : truthy (if truthy (attrProp a "brand") then
        attrProp a "brand" else attrProp a "marca") = true
    · simp [brandAttrStep, attrsExtract, hb, ta, tp]
    · have tpf := Bool.eq_false_iff.mpr tp
      simp [attrsExtract, ta, tpf, show truthy LVal.undefined = false from rfl] at hc
  · have taf : isObjLike a = false := Bool.eq_false_iff.mpr ta
    simp [attrsExtract, taf, show truthy LVal.undefined = false from rfl] at hc

/-- The source's final trim/default handling agrees with the amended
`candFinal` on a truthy final value. -/
theorem brandFinal_eq_some (dflt : String) (b : LVal) (hb : truthy b = true) :
    brandFinal dflt b = candFinal dflt (some b) := by
  unfold brandFinal candFinal
  simp only [hb, if_true, ite_true]
  by_cases hs : jsTrim (jsToString b) = "" <;> by_cases hd : dflt = "" <;> simp [hs, hd]

/-- The source's final trim/default handling agrees with the amended
`candFinal` when no truthy value was found. -/
theorem brandFinal_eq_none (dflt : String) (b : LVal) (hb : truthy b = false) :
    brandFinal dflt b = candFinal dflt none := by
  unfold brandFinal candFinal
  simp only [hb, Bool.false_eq_true, if_false, ite_false]
  by_cases hd : dflt = "" <;> simp [hd, show jsTrim "" = "" from rfl]

/-- C7, counterexample to the claim as stated: for a product with
`brand: " "` (whitespace only, so its trimmed value is empty) and
`vendor: "Nike"`, the first non-empty trimmed value in the claimed precedence
order is `"Nike"`, yet `getBrandForProduct` returns `""`: the truthy
untrimmed brand short-circuits the vendor/manufacturer/attribute steps, and
trimming happens only at the end. -/
theorem brand_precedence_counterexample :
    jsTrim " " = "" ∧
    jsTrim "Nike" = "Nike" ∧
    truthy (LVal.str " ") = true ∧
    getBrandForProduct {} "1" { brand := .str " ", vendor := .str "Nike" } = "" := by
  decide

/-- C7 (amended): the resolver returns the per-store override when its
trimmed value is nonempty; otherwise the trimmed string form of the first
truthy (pre-trim) candidate among the brand field (nested name preferred),
vendor, manufacturer and the attributes bag's `brand`/`marca`; when that
trimmed string is empty — or no candidate is truthy — it falls back to the
trimmed global default, else `""`.  A later source is consulted only when
every earlier one is falsy before trimming.  An empty result makes the
serializer omit the `g:brand` element entirely (no fallback brand text):
`brandBlock "" = []` and the emitted item lines are exactly the brand-free
sequence. -/
theorem brand_resolution (cfg : Config) (storeId : String) (p : Product)
    (d : String) (it : FeedItem) :
    getBrandForProduct cfg storeId p = getBrandResolved cfg storeId p ∧
    (∀ b : String, (brandBlock b = [] ↔ b = "")) ∧
    (getBrandForProduct cfg storeId (it.rawProduct.getD Product.empty) = "" →
      optTruthy it.price = true →
      itemLines cfg storeId d it =
        ["  <item>",
         "    <g:id>" ++ xmlEscape (.str it.item_id) ++ "</g:id>",
         "    <g:title><![CDATA[" ++ safeCdataStr it.title ++ "]]></g:title>",
         "    <g:description><![CDATA[" ++ safeCdataStr it.description ++
           "]]></g:description>",
         "    <g:link>" ++ xmlEscape (.str (productLink (.str d) it.handleSlug)) ++
           "</g:link>"]
        ++ imageBlock it.image_link
        ++ ["    <g:availability>" ++ xmlEscape (.str it.availability) ++
              "</g:availability>",
            "    <g:price>" ++ xmlEscape (.str (it.price.getD "")) ++ " ARS</g:price>"]
        ++ saleBlock it.sale_price
        ++ ["    <g:condition>new</g:condition>",
            "    <g:identifier_exists>false</g:identifier_exists>",
            "  </item>"]) := by
  refine ⟨?_, ?_, ?_⟩
  · unfold getBrandForProduct getBrandResolved
    by_cases hov : resolveBrandOverride cfg.brandMap storeId = ""
    case neg => simp [hov]
    case pos =>
      have hovn : ¬ (resolveBrandOverride cfg.brandMap storeId ≠ "") := by simp [hov]
      rw [if_neg hovn, if_neg hovn]
      by_cases T1 : truthy (brandFieldExtract p.brand) = true
      · rw [brandInit_eq_of_truthy p.brand T1, brandStep_keep _ _ T1,
          brandStep_keep _ _ T1, brandAttrStep_keep _ _ T1,
          List.find?_cons_of_pos _ T1, brandFinal_eq_some _ _ T1]
      · have T1f : truthy (brandFieldExtract p.brand) = false := Bool.eq_false_iff.mpr T1
        have hb1 : truthy (brandInit p.brand) = false := by
          rw [brandInit_truthy, T1f]
        rw [List.find?_cons_of_neg _ (by simp [T1f])]
        by_cases T2 : truthy (plainExtract p.vendor) = true
        · rw [brandStep_new _ _ hb1 T2, brandStep_keep _ _ T2, brandAttrStep_keep _ _ T2,
            List.find?_cons_of_pos _ T2, brandFinal_eq_some _ _ T2]
        · have T2f : truthy (plainExtract p.vendor) = false := Bool.eq_false_iff.mpr T2
          have hb2 : truthy (brandStep (brandInit p.brand) p.vendor) = false := by
            rw [brandStep_truthy, hb1, T2f]
            rfl
          rw [List.find?_cons_of_neg _ (by simp [T2f])]
          by_cases T3 : truthy (plainExtract p.manufacturer) = true
          · rw [brandStep_new _ _ hb2 T3, brandAttrStep_keep _ _ T3,
              List.find?_cons_of_pos _ T3, brandFinal_eq_some _ _ T3]
          · have T3f : truthy (plainExtract p.manufacturer) = false :=
              Bool.eq_false_iff.mpr T3
            have hb3 : truthy (brandStep (brandStep (brandInit p.brand) p.vendor)
                p.manufacturer) = false := by
              rw [brandStep_truthy, hb2, T3f]
              rfl
            rw [List.find?_cons_of_neg _ (by simp [T3f])]
            by_cases T4 : truthy (attrsExtract p.attributes) = true
            · rw [brandAttrStep_new _ _ hb3 T4, List.find?_cons_of_pos _ T4,
                brandFinal_eq_some _ _ T4]
            · have T4f : truthy (attrsExtract p.attributes) = false :=
                Bool.eq_false_iff.mpr T4
              have hb4 : truthy (brandAttrStep (brandStep (brandStep (brandInit p.brand)
                  p.vendor) p.manufacturer) p.attributes) = false := by
                rw [brandAttrStep_truthy, hb3, T4f]
                rfl
              rw [List.find?_cons_of_neg _ (by simp [T4f]), List.find?_nil,
                brandFinal_eq_none _ _ hb4]
  · intro b
    constructor
    · intro h
      by_cases hb : b = ""
      · exact hb
      · simp [brandBlock, hb] at h
    · intro h
      simp [brandBlock, h]
  · intro hbrand hp
    simp [itemLines, hp, hbrand, brandBlock]

/-- A product whose whitespace brand suppresses the vendor and leaves an
empty resolved brand. -/
def brandWitnessProduct : Product :=
  { brand := .str " ", vendor := .str "Nike" }

/-- A priced item over `brandWitnessProduct`. -/
def brandWitnessItem : FeedItem :=
  { item_id := "1-10", title := "Shoe", description := "Shoe", handleSlug := "shoe",
    image_link := .str "", price := some "50.00", sale_price := none,
    availability := "in_stock", rawProduct := some brandWitnessProduct,
    rawVariant := none }

/-- C7 witness: the brand-free item lines for a concrete item whose resolved
brand is empty. -/
theorem brand_resolution_witness :
    itemLines {} "1" "d.com" brandWitnessItem =
      ["  <item>",
       "    <g:id>" ++ xmlEscape (.str brandWitnessItem.item_id) ++ "</g:id>",
       "    <g:title><![CDATA[" ++ safeCdataStr brandWitnessItem.title ++ "]]></g:title>",
       "    <g:description><![CDATA[" ++ safeCdataStr brandWitnessItem.description ++
         "]]></g:description>",
       "    <g:link>" ++ xmlEscape (.str (productLink (.str "d.com")
         brandWitnessItem.handleSlug)) ++ "</g:link>"]
      ++ imageBlock brandWitnessItem.image_link
      ++ ["    <g:availability>" ++ xmlEscape (.str brandWitnessItem.availability) ++
            "</g:availability>",
          "    <g:price>" ++ xmlEscape (.str (brandWitnessItem.price.getD "")) ++
            " ARS</g:price>"]
      ++ saleBlock brandWitnessItem.sale_price
      ++ ["    <g:condition>new</g:condition>",
          "    <g:identifier_exists>false</g:identifier_exists>",
          "  </item>"] :=
  (brand_resolution {} "1" Product.empty "d.com" brandWitnessItem).2.2
    (by decide) (by decide)

/-! ### SHA-1 and the feed cache

`setCached` fingerprints the document with Node's
`crypto.createHash('sha1').update(xml).digest('hex')`.  That library code is
not part of this repository; following the spec ("a deterministic hash of the
bytes") it is modelled here as FIPS 180 SHA-1 over the UTF-8 bytes of the
string, word arithmetic carried out on `ℕ` modulo `2^32`. -/

/-- Truncation to a 32-bit word. -/
def w32 (n : ℕ) : ℕ :=
  n % 4294967296

/-- 32-bit left rotation (input assumed below `2^32`). -/
def rotl (k n : ℕ) : ℕ :=
  w32 ((n <<< k) ||| (n >>> (32 - k)))

/-- 32-bit bitwise complement. -/
def bnot32 (n : ℕ) : ℕ :=
  4294967295 ^^^ n

/-- SHA-1 padding: `0x80`, zeros to 56 mod 64, then the 64-bit big-endian
bit length. -/
def sha1Pad (msg : List ℕ) : List ℕ :=
  let L := msg.length
  let zeros := (120 - ((L + 1) % 64)) % 64
  let bl := 8 * L
  msg ++ [128] ++ List.replicate zeros 0 ++
    [(bl >>> 56) % 256, (bl >>> 48) % 256, (bl >>> 40) % 256, (bl >>> 32) % 256,
     (bl >>> 24) % 256, (bl >>> 16) % 256, (bl >>> 8) % 256, bl % 256]

/-- Split into 64-byte blocks (fuel-indexed; the list length is always
sufficient fuel since each step consumes at least one byte). -/
def chunk64F : ℕ → List ℕ → List (List ℕ)
  | 0, _ => []
  | _ + 1, [] => []
  | fuel + 1, x :: xs => (x :: xs).take 64 :: chunk64F fuel ((x :: xs).drop 64)

/-- Split a padded message into 64-byte blocks. -/
def chunk64 (l : List ℕ) : List (List ℕ) :=
  chunk64F l.length l

/-- Big-endian 32-bit words of a 64-byte block. -/
def wordsOfBlock : List ℕ → List ℕ
  | b0 :: b1 :: b2 :: b3 :: rest =>
    (((b0 * 256 + b1) * 256 + b2) * 256 + b3) :: wordsOfBlock rest
  | _ => []

/-- One word of the SHA-1 message-schedule extension. -/
def extendStep (ws : List ℕ) : List ℕ :=
  ws ++ [rotl 1 ((ws.getD (ws.length - 3) 0 ^^^ ws.getD (ws.length - 8) 0) ^^^
    (ws.getD (ws.length - 14) 0 ^^^ ws.getD (ws.length - 16) 0))]

/-- Iterate the message-schedule extension. -/
def extendWords : ℕ → List ℕ → List ℕ
  | 0, ws => ws
  | n + 1, ws => extendWords n (extendStep ws)

/-- The 80-word message schedule of a block. -/
def sha1MsgWords (block : List ℕ) : List ℕ :=
  extendWords 64 (wordsOfBlock block)

/-- The five SHA-1 working words. -/
structure Sha1State where
  a : ℕ
  b : ℕ
  c : ℕ
  d : ℕ
  e : ℕ

/-- The SHA-1 round function. -/
def sha1F (i b c d : ℕ) : ℕ :=
  if i < 20 then (b &&& c) ||| (bnot32 b &&& d)
  else if i < 40 then (b ^^^ c) ^^^ d
  else if i < 60 then ((b &&& c) ||| (b &&& d)) ||| (c &&& d)
  else (b ^^^ c) ^^^ d

/-- The SHA-1 round constants. -/
def sha1K (i : ℕ) : ℕ :=
  if i < 20 then 1518500249
  else if i < 40 then 1859775393
  else if i < 60 then 2400959708
  else 3395469782

/-- One SHA-1 round. -/
def sha1Round (ws : List ℕ) (st : Sha1State) (i : ℕ) : Sha1State :=
  let temp := w32 (rotl 5 st.a + sha1F i st.b st.c st.d + st.e + sha1K i + ws.getD i 0)
  { a := temp, b := st.a, c := rotl 30 st.b, d := st.c, e := st.d }

/-- Process one 64-byte block. -/
def sha1Block (h : Sha1State) (block : List ℕ) : Sha1State :=
  let ws := sha1MsgWords block
  let st := (List.range 80).foldl (sha1Round ws) h
  { a := w32 (h.a + st.a), b := w32 (h.b + st.b), c := w32 (h.c + st.c),
    d := w32 (h.d + st.d), e := w32 (h.e + st.e) }

/-- The SHA-1 initialization vector. -/
def sha1Init : Sha1State :=
  { a := 1732584193, b := 4023233417, c := 2562383102, d := 271733878, e := 3285377520 }

/-- Big-endian bytes of a 32-bit word. -/
def wordBytes (w : ℕ) : List ℕ :=
  [(w >>> 24) % 256, (w >>> 16) % 256, (w >>> 8) % 256, w % 256]

/-- The 20-byte SHA-1 digest of a byte string. -/
def sha1Bytes (msg : List ℕ) : List ℕ :=
  let fin := (chunk64 (sha1Pad msg)).foldl sha1Block sha1Init
  wordBytes fin.a ++ wordBytes fin.b ++ wordBytes fin.c ++ wordBytes fin.d ++
    wordBytes fin.e

/-- Lowercase hexadecimal digit: `0`-`9` for values below ten, `a`-`f` up to
fifteen. -/
def hexChar (n : ℕ) : Char :=
  if n < 10 then Char.ofNat (48 + n)
  else if n < 16 then Char.ofNat (87 + n)
  else '0'

/-- Two hex characters of one byte. -/
def byteHexChars (b : ℕ) : List Char :=
  [hexChar ((b / 16) % 16), hexChar (b % 16)]

/-- The 40-character hex digest (`digest('hex')`). -/
def sha1Hex (msg : List ℕ) : String :=
  ⟨(sha1Bytes msg).flatMap byteHexChars⟩

/-- UTF-8 encoding of one character. -/
def utf8Encode (c : Char) : List ℕ :=
  let n := c.toNat
  if n < 128 then [n]
  else if n < 2048 then [192 + n / 64, 128 + n % 64]
  else if n < 65536 then [224 + n / 4096, 128 + (n / 64) % 64, 128 + n % 64]
  else [240 + n / 262144, 128 + (n / 4096) % 64, 128 + (n / 64) % 64, 128 + n % 64]

/-- The UTF-8 bytes of a string (what `hash.update(xml)` consumes). -/
def utf8Bytes (s : String) : List ℕ :=
  s.data.flatMap utf8Encode

/-- The fingerprint of a document:
`crypto.createHash('sha1').update(xml).digest('hex')`. -/
def sha1HexOfString (s : String) : String :=
  sha1Hex (utf8Bytes s)

/-- A feed-cache entry (`{ xml, etag, generatedAt, expiresAt }`). -/
structure CacheEntry where
  xml : String
  etag : String
  generatedAt : ℕ
  expiresAt : ℕ

/-- `setCached` of `server.js` (timestamps in milliseconds; the TTL is the
numeric `FEED_CACHE_TTL_SECONDS`, clamped with `Math.max(0, ·)`). -/
def setCached (ttlSeconds now : ℕ) (xml : String) : CacheEntry :=
  { xml := xml, etag := sha1HexOfString xml, generatedAt := now,
    expiresAt := now + max 0 ttlSeconds * 1000 }

/-! ### Claim C8: conditional requests -/

/-- The validator preprocessing
`(req.headers['if-none-match'] || '').replace(/"/g, '')`. -/
def stripQuotes (s : String) : String :=
  ⟨s.data.filter (fun c => c ≠ '"')⟩

/-- The outcome of a feed request: a 304 with empty body, or a 200 carrying
the XML body and the quoted `ETag` header value. -/
inductive FeedResponse where
  | notModified : FeedResponse
  | body : String → String → FeedResponse

/-- The cached branch of the `/feed.xml` handler: a matching nonempty
validator short-circuits to 304; otherwise the cached bytes are sent with
`ETag: "{etag}"`. -/
def respondCached (ifNoneMatch : Option String) (c : CacheEntry) : FeedResponse :=
  let inm := stripQuotes (ifNoneMatch.getD "")
  if inm ≠ "" ∧ inm = c.etag then .notModified
  else .body c.xml ("\"" ++ c.etag ++ "\"")

/-- The fresh-generation branch of the `/feed.xml` handler: the document is
stored via `setCached`, and the same conditional check runs against the new
fingerprint before responding. -/
def respondFresh (ttlSeconds now : ℕ) (ifNoneMatch : Option String)
    (xml : String) : FeedResponse :=
  let etag := (setCached ttlSeconds now xml).etag
  let inm := stripQuotes (ifNoneMatch.getD "")
  if inm ≠ "" ∧ inm = etag then .notModified
  else .body xml ("\"" ++ etag ++ "\"")

/-- The digest always has 20 bytes. -/
theorem sha1Bytes_length (msg : List ℕ) : (sha1Bytes msg).length = 20 := by
  simp [sha1Bytes, wordBytes]

/-- Hex expansion doubles the length. -/
theorem flatMap_byteHex_length (l : List ℕ) :
    (l.flatMap byteHexChars).length = 2 * l.length := by
  induction l with
  | nil => rfl
  | cons x xs ih =>
    simp [byteHexChars, ih]
    omega

/-- The hex digest always has 40 characters. -/
theorem sha1Hex_length (msg : List ℕ) : (sha1Hex msg).length = 40 := by
  have h : (sha1Hex msg).length = ((sha1Bytes msg).flatMap byteHexChars).length := rfl
  rw [h, flatMap_byteHex_length, sha1Bytes_length]

/-- The fingerprint is never the empty string. -/
theorem sha1Hex_ne_empty (msg : List ℕ) : sha1Hex msg ≠ "" := by
  intro h
  have h0 : (sha1Hex msg).length = 0 := by rw [h]; rfl
  rw [sha1Hex_length] at h0
  exact absurd h0 (by decide)

/-- Hex digits are never the double-quote character. -/
theorem hexChar_ne_quote (n : ℕ) : hexChar n ≠ '"' := by
  unfold hexChar
  rcases lt_or_ge n 16 with h | h
  · interval_cases n <;> decide
  · rw [if_neg (by omega), if_neg (by omega)]
    decide

/-- Quote stripping leaves a hex digest unchanged. -/
theorem stripQuotes_sha1 (msg : List ℕ) :
    stripQuotes (sha1Hex msg) = sha1Hex msg := by
  unfold stripQuotes sha1Hex
  congr 1
  refine List.filter_eq_self.mpr ?_
  intro a ha
  rcases List.mem_flatMap.mp ha with ⟨b, _, hab⟩
  have hne : a ≠ '"' := by
    simp only [byteHexChars, List.mem_cons, List.not_mem_nil, or_false] at hab
    rcases hab with h1 | h1
    · exact h1 ▸ hexChar_ne_quote _
    · exact h1 ▸ hexChar_ne_quote _
  simpa using hne

/-- C8: a request whose `If-None-Match`, after stripping double quotes,
equals the current document fingerprint yields a 304 with empty body — both
on the cached branch (for any entry carrying its document's fingerprint, as
`setCached` guarantees) and on the fresh branch; a non-matching validator
yields the body together with an `ETag` header carrying exactly the (quoted)
fingerprint. -/
theorem conditional_request (ttl now : ℕ) (inm : Option String) (c : CacheEntry)
    (xml : String) :
    (c.etag = sha1HexOfString c.xml → stripQuotes (inm.getD "") = c.etag →
      respondCached inm c = .notModified) ∧
    (stripQuotes (inm.getD "") = sha1HexOfString xml →
      respondFresh ttl now inm xml = .notModified) ∧
    (stripQuotes (inm.getD "") ≠ c.etag →
      respondCached inm c = .body c.xml ("\"" ++ c.etag ++ "\"")) ∧
    (stripQuotes (inm.getD "") ≠ sha1HexOfString xml →
      respondFresh ttl now inm xml = .body xml ("\"" ++ sha1HexOfString xml ++ "\"")) := by
  refine ⟨?_, ?_, ?_, ?_⟩
  · intro hc hm
    have hne : c.etag ≠ "" := by
      rw [hc]
      exact sha1Hex_ne_empty _
    simp [respondCached, hm, hne]
  · intro hm
    have hne : sha1HexOfString xml ≠ "" := sha1Hex_ne_empty _
    simp [respondFresh, setCached, hm, hne]
  · intro hm
    simp [respondCached, hm]
  · intro hm
    simp [respondFresh, setCached, hm]

/-- C8 witness: a concrete document, its real fingerprint as validator (304
on both branches), and a non-matching validator (body plus quoted ETag). -/
theorem conditional_request_witness :
    respondCached (some (sha1HexOfString "<a/>")) (setCached 300 0 "<a/>") =
      .notModified ∧
    respondFresh 300 0 (some (sha1HexOfString "<a/>")) "<a/>" = .notModified ∧
    respondCached (some "zzz") (setCached 300 0 "<a/>") =
      .body "<a/>" ("\"" ++ (setCached 300 0 "<a/>").etag ++ "\"") ∧
    respondFresh 300 0 (some "zzz") "<a/>" =
      .body "<a/>" ("\"" ++ sha1HexOfString "<a/>" ++ "\"") := by
  have hmatch : stripQuotes ((some (sha1HexOfString "<a/>")).getD "") =
      (setCached 300 0 "<a/>").etag := stripQuotes_sha1 (utf8Bytes "<a/>")
  have hnm : stripQuotes ((some "zzz").getD "") ≠ (setCached 300 0 "<a/>").etag := by
    intro h
    have hl := congrArg String.length h
    have h3 : (stripQuotes ((some "zzz").getD "")).length = 3 := rfl
    have h40 : ((setCached 300 0 "<a/>").etag).length = 40 :=
      sha1Hex_length (utf8Bytes "<a/>")
    omega
  refine ⟨?_, ?_, ?_, ?_⟩
  · exact (conditional_request 300 0 (some (sha1HexOfString "<a/>"))
      (setCached 300 0 "<a/>") "<a/>").1 rfl hmatch
  · exact (conditional_request 300 0 (some (sha1HexOfString "<a/>"))
      (setCached 300 0 "<a/>") "<a/>").2.1 hmatch
  · exact (conditional_request 300 0 (some "zzz")
      (setCached 300 0 "<a/>") "<a/>").2.2.1 hnm
  · exact (conditional_request 300 0 (some "zzz")
      (setCached 300 0 "<a/>") "<a/>").2.2.2 hnm

end TnFeed
